import Mathlib

/-!
# Verification of the Errorify chat relay

A shallow embedding of the Errorify chat widget and its HTTP proxy:
a React client (`web/src/App.jsx`, two variants) that sends a conversation
transcript to an Express proxy (`server/server.js`, two variants), which trims
the transcript and relays it to an upstream model provider.

JavaScript values that flow through the relay are modelled by the inductive
type `Json` below.  JavaScript `undefined` is modelled as an absent field
(`Option.none` from lookups); numbers are modelled as integers (every number
appearing in the relay's envelopes is an integer).  The platform primitives
`JSON.stringify` and `JSON.parse` are modelled by executable functions
`stringify` and `parseJson` written to follow the JSON grammar the same way
the platform does on the values in scope.
-/

/-- A JSON value, the model of the JavaScript values exchanged by the relay. -/
inductive Json where
  | null : Json
  | bool : Bool → Json
  | num : Int → Json
  | str : String → Json
  | arr : List Json → Json
  | obj : List (String × Json) → Json
deriving Repr

namespace Json

mutual

def decEq : (a b : Json) → Decidable (a = b)
  | .null, .null => isTrue rfl
  | .bool a, .bool b =>
    match inferInstanceAs (Decidable (a = b)) with
    | isTrue h => isTrue (h ▸ rfl)
    | isFalse h => isFalse (fun hh => h (Json.bool.inj hh))
  | .num a, .num b =>
    match inferInstanceAs (Decidable (a = b)) with
    | isTrue h => isTrue (h ▸ rfl)
    | isFalse h => isFalse (fun hh => h (Json.num.inj hh))
  | .str a, .str b =>
    match inferInstanceAs (Decidable (a = b)) with
    | isTrue h => isTrue (h ▸ rfl)
    | isFalse h => isFalse (fun hh => h (Json.str.inj hh))
  | .arr a, .arr b =>
    match decEqList a b with
    | isTrue h => isTrue (h ▸ rfl)
    | isFalse h => isFalse (fun hh => h (Json.arr.inj hh))
  | .obj a, .obj b =>
    match decEqFields a b with
    | isTrue h => isTrue (h ▸ rfl)
    | isFalse h => isFalse (fun hh => h (Json.obj.inj hh))
  | .null, .bool _ | .null, .num _ | .null, .str _ | .null, .arr _ | .null, .obj _ =>
    isFalse (fun h => Json.noConfusion h)
  | .bool _, .null | .bool _, .num _ | .bool _, .str _ | .bool _, .arr _ | .bool _, .obj _ =>
    isFalse (fun h => Json.noConfusion h)
  | .num _, .null | .num _, .bool _ | .num _, .str _ | .num _, .arr _ | .num _, .obj _ =>
    isFalse (fun h => Json.noConfusion h)
  | .str _, .null | .str _, .bool _ | .str _, .num _ | .str _, .arr _ | .str _, .obj _ =>
    isFalse (fun h => Json.noConfusion h)
  | .arr _, .null | .arr _, .bool _ | .arr _, .num _ | .arr _, .str _ | .arr _, .obj _ =>
    isFalse (fun h => Json.noConfusion h)
  | .obj _, .null | .obj _, .bool _ | .obj _, .num _ | .obj _, .str _ | .obj _, .arr _ =>
    isFalse (fun h => Json.noConfusion h)

def decEqList : (a b : List Json) → Decidable (a = b)
  | [], [] => isTrue rfl
  | [], _ :: _ => isFalse (fun h => List.noConfusion h)
  | _ :: _, [] => isFalse (fun h => List.noConfusion h)
  | x :: xs, y :: ys =>
    match decEq x y with
    | isTrue h1 =>
      match decEqList xs ys with
      | isTrue h2 => isTrue (h1 ▸ h2 ▸ rfl)
      | isFalse h2 => isFalse (fun hh => h2 (List.cons.inj hh).2)
    | isFalse h1 => isFalse (fun hh => h1 (List.cons.inj hh).1)

def decEqFields : (a b : List (String × Json)) → Decidable (a = b)
  | [], [] => isTrue rfl
  | [], _ :: _ => isFalse (fun h => List.noConfusion h)
  | _ :: _, [] => isFalse (fun h => List.noConfusion h)
  | (k1, v1) :: xs, (k2, v2) :: ys =>
    match inferInstanceAs (Decidable (k1 = k2)) with
    | isTrue hk =>
      match decEq v1 v2 with
      | isTrue hv =>
        match decEqFields xs ys with
        | isTrue ht => isTrue (hk ▸ hv ▸ ht ▸ rfl)
        | isFalse ht => isFalse (fun hh => ht (List.cons.inj hh).2)
      | isFalse hv =>
        isFalse (fun hh => hv (congrArg Prod.snd (List.cons.inj hh).1))
    | isFalse hk =>
      isFalse (fun hh => hk (congrArg Prod.fst (List.cons.inj hh).1))

end

instance : DecidableEq Json := decEq

/-- JavaScript property access `v[key]`: defined only on objects; `none`
models `undefined`. -/
def getField : Json → String → Option Json
  | .obj fields, key => fields.lookup key
  | _, _ => none

/-- JavaScript truthiness of a value (`null`, `false`, `0` and `""` are
falsy; arrays and objects are always truthy). -/
def truthy : Json → Bool
  | .null => false
  | .bool b => b
  | .num n => n != 0
  | .str s => s != ""
  | .arr _ => true
  | .obj _ => true

/-- Truthiness of a possibly-absent value: JavaScript `undefined` is falsy. -/
def truthyO : Option Json → Bool
  | some v => v.truthy
  | none => false

/-- JavaScript indexing `v[0]` as used by the client: element zero of an
array, or the `"0"` property of an object; `none` models `undefined`. -/
def index0 : Json → Option Json
  | .arr xs => xs.head?
  | .obj fields => fields.lookup "0"
  | _ => none

/-- One hexadecimal digit, lowercase, as emitted by `JSON.stringify` in
`\u00..` escapes. -/
def hexDigit (n : Nat) : Char :=
  if n < 10 then Char.ofNat (48 + n) else Char.ofNat (87 + n)

/-- The escape sequence `JSON.stringify` emits for one character of a
string value. -/
def escChar (c : Char) : List Char :=
  if c = '"' then ['\\', '"']
  else if c = '\\' then ['\\', '\\']
  else if c = '\n' then ['\\', 'n']
  else if c = '\t' then ['\\', 't']
  else if c = '\r' then ['\\', 'r']
  else if c = '\x08' then ['\\', 'b']
  else if c = '\x0c' then ['\\', 'f']
  else if c.toNat < 32 then
    ['\\', 'u', '0', '0', hexDigit (c.toNat / 16), hexDigit (c.toNat % 16)]
  else [c]

/-- A JSON string literal: the argument quoted and escaped as
`JSON.stringify` does. -/
def quoteStr (s : String) : String :=
  ⟨'"' :: (s.data.flatMap escChar) ++ ['"']⟩

mutual

/-- Model of the platform primitive `JSON.stringify` on the values in scope:
no spacing, object fields in their stored order, numbers printed as
integers (the only numbers the relay produces). -/
def stringify : Json → String
  | .null => "null"
  | .bool true => "true"
  | .bool false => "false"
  | .num n => toString n
  | .str s => quoteStr s
  | .arr xs => "[" ++ stringifyItems xs ++ "]"
  | .obj fs => "\x7b" ++ stringifyFields fs ++ "\x7d"

def stringifyItems : List Json → String
  | [] => ""
  | [x] => stringify x
  | x :: y :: rest => stringify x ++ "," ++ stringifyItems (y :: rest)

def stringifyFields : List (String × Json) → String
  | [] => ""
  | [(k, v)] => quoteStr k ++ ":" ++ stringify v
  | (k, v) :: f :: rest => quoteStr k ++ ":" ++ stringify v ++ "," ++ stringifyFields (f :: rest)

end

end Json

/-! ## A model of `JSON.parse`

A fuel-indexed recursive-descent parser for the JSON grammar, used by both
server variants (`JSON.parse(text)` on the upstream error body) and by the
`part_000` client variant (`JSON.parse(textBody)` on the error body).
Numbers are restricted to the integer part of the JSON number grammar, the
only numbers exercised by the relay. The fuel passed by `parseJson` is ample
for every input whose nesting is bounded by its length. -/

/-- The whitespace characters the JSON grammar skips between tokens. -/
def jsonWs (c : Char) : Bool :=
  c = ' ' || c = '\t' || c = '\n' || c = '\r'

/-- Skip JSON inter-token whitespace. -/
def skipWs (cs : List Char) : List Char :=
  cs.dropWhile jsonWs

/-- Body of a JSON string literal after the opening quote: returns the
decoded characters and the remainder after the closing quote. -/
def parseStrChars : Nat → List Char → Option (List Char × List Char)
  | 0, _ => none
  | _ + 1, [] => none
  | _ + 1, '"' :: rest => some ([], rest)
  | fuel + 1, '\\' :: rest =>
    match rest with
    | [] => none
    | e :: rest2 =>
      if e = '"' then (parseStrChars fuel rest2).map (fun (s, r) => ('"' :: s, r))
      else if e = '\\' then (parseStrChars fuel rest2).map (fun (s, r) => ('\\' :: s, r))
      else if e = '/' then (parseStrChars fuel rest2).map (fun (s, r) => ('/' :: s, r))
      else if e = 'n' then (parseStrChars fuel rest2).map (fun (s, r) => ('\n' :: s, r))
      else if e = 't' then (parseStrChars fuel rest2).map (fun (s, r) => ('\t' :: s, r))
      else if e = 'r' then (parseStrChars fuel rest2).map (fun (s, r) => ('\r' :: s, r))
      else if e = 'b' then (parseStrChars fuel rest2).map (fun (s, r) => ('\x08' :: s, r))
      else if e = 'f' then (parseStrChars fuel rest2).map (fun (s, r) => ('\x0c' :: s, r))
      else if e = 'u' then
        match rest2 with
        | h1 :: h2 :: h3 :: h4 :: rest3 =>
          if isHex h1 && isHex h2 && isHex h3 && isHex h4 then
            let code := 4096 * hexVal h1 + 256 * hexVal h2 + 16 * hexVal h3 + hexVal h4
            (parseStrChars fuel rest3).map (fun (s, r) => (Char.ofNat code :: s, r))
          else none
        | _ => none
      else none
  | fuel + 1, c :: rest =>
    if c.toNat < 32 then none
    else (parseStrChars fuel rest).map (fun (s, r) => (c :: s, r))
where
  isHex (c : Char) : Bool :=
    c.isDigit || ('a' ≤ c && c ≤ 'f') || ('A' ≤ c && c ≤ 'F')
  hexVal (c : Char) : Nat :=
    if c.isDigit then c.toNat - 48
    else if 'a' ≤ c ∧ c ≤ 'f' then c.toNat - 87
    else c.toNat - 55

/-- Digits of a JSON integer: `0` alone, or a nonzero digit followed by
digits; leading zeros are rejected, as `JSON.parse` rejects them. -/
def parseIntDigits (cs : List Char) : Option (Nat × List Char) :=
  match cs with
  | '0' :: rest =>
    match rest with
    | c :: _ => if c.isDigit then none else some (0, rest)
    | [] => some (0, [])
  | c :: _ =>
    if c.isDigit then
      let digits := cs.takeWhile Char.isDigit
      let rest := cs.dropWhile Char.isDigit
      some (digits.foldl (fun acc d => 10 * acc + (d.toNat - 48)) 0, rest)
    else none
  | [] => none

/-- A JSON number token, restricted to integers: optional minus sign then
integer digits; a following fraction or exponent makes the parse fail. -/
def parseNum (cs : List Char) : Option (Json × List Char) :=
  match cs with
  | '-' :: rest =>
    (parseIntDigits rest).bind (fun (n, r) =>
      match r with
      | c :: _ => if c = '.' ∨ c = 'e' ∨ c = 'E' then none else some (.num (-(n : Int)), r)
      | [] => some (.num (-(n : Int)), []))
  | _ =>
    (parseIntDigits cs).bind (fun (n, r) =>
      match r with
      | c :: _ => if c = '.' ∨ c = 'e' ∨ c = 'E' then none else some (.num (n : Int), r)
      | [] => some (.num (n : Int), []))

mutual

/-- A JSON value with leading whitespace allowed: the core of `JSON.parse`. -/
def parseValue : Nat → List Char → Option (Json × List Char)
  | 0, _ => none
  | fuel + 1, cs =>
    match skipWs cs with
    | 'n' :: 'u' :: 'l' :: 'l' :: rest => some (.null, rest)
    | 't' :: 'r' :: 'u' :: 'e' :: rest => some (.bool true, rest)
    | 'f' :: 'a' :: 'l' :: 's' :: 'e' :: rest => some (.bool false, rest)
    | '"' :: rest => (parseStrChars (rest.length + 1) rest).map (fun (s, r) => (.str ⟨s⟩, r))
    | '\x5b' :: rest =>
      (match skipWs rest with
       | '\x5d' :: rest2 => some (.arr [], rest2)
       | _ => (parseItems fuel rest).map (fun (xs, r) => (.arr xs, r)))
    | '\x7b' :: rest =>
      (match skipWs rest with
       | '\x7d' :: rest2 => some (.obj [], rest2)
       | _ => (parseFields fuel rest).map (fun (fs, r) => (.obj fs, r)))
    | rest => parseNum rest

/-- One or more comma-separated array elements followed by `]`. -/
def parseItems : Nat → List Char → Option (List Json × List Char)
  | 0, _ => none
  | fuel + 1, cs =>
    (parseValue fuel cs).bind (fun (v, r) =>
      match skipWs r with
      | ',' :: r2 => (parseItems fuel r2).map (fun (vs, r3) => (v :: vs, r3))
      | '\x5d' :: r2 => some ([v], r2)
      | _ => none)

/-- One or more comma-separated `"key": value` fields followed by `}`. -/
def parseFields : Nat → List Char → Option (List (String × Json) × List Char)
  | 0, _ => none
  | fuel + 1, cs =>
    match skipWs cs with
    | '"' :: rest =>
      (parseStrChars (rest.length + 1) rest).bind (fun (k, r) =>
        match skipWs r with
        | ':' :: r2 =>
          (parseValue fuel r2).bind (fun (v, r3) =>
            match skipWs r3 with
            | ',' :: r4 => (parseFields fuel r4).map (fun (fs, r5) => ((⟨k⟩, v) :: fs, r5))
            | '\x7d' :: r4 => some ([(⟨k⟩, v)], r4)
            | _ => none)
        | _ => none)
    | _ => none

end

/-- Model of the platform primitive `JSON.parse`: parses the whole input as
one JSON value (trailing whitespace allowed), `none` when the input is not
valid JSON — the situation the code detects with `try/catch`. -/
def parseJson (s : String) : Option Json :=
  match parseValue (2 * s.length + 16) s.data with
  | some (v, rest) => if skipWs rest = [] then some v else none
  | none => none

/-- Model of JavaScript `String.prototype.trim`: strip leading and trailing
whitespace. -/
def jsTrim (s : String) : String :=
  ⟨((s.data.dropWhile jsWsChar).reverse.dropWhile jsWsChar).reverse⟩
where
  jsWsChar (c : Char) : Bool :=
    c = ' ' || c = '\t' || c = '\n' || c = '\r' || c = '\x0b' || c = '\x0c'

/-- Model of JavaScript `String.prototype.startsWith`. -/
def strStartsWith (s p : String) : Bool :=
  p.data.isPrefixOf s.data

/-! ## Data model: messages and transcripts -/

/-- One transcript message (`{ role, content }`); the optional display
timestamp carried by one client variant plays no role in any behavior
modelled here. -/
structure ChatMessage where
  role : String
  content : String
deriving DecidableEq, Repr

/-! ## Client: provider-envelope shape extraction

From `web/src/App.jsx`, `sendMessage` (the shape ladder, identical in both
client variants):

    if (data.choices && data.choices[0] && data.choices[0].message)
      assistantText = data.choices[0].message.content;
    else if (data.output)
      assistantText = typeof data.output === "string"
        ? data.output : (data.output[0] ?? JSON.stringify(data.output));
    else if (data.result) assistantText = data.result;
    else assistantText = JSON.stringify(data);
-/

/-- The guard of the first branch of the ladder:
`data.choices && data.choices[0] && data.choices[0].message`
(JavaScript truthiness at each step). -/
def choicesShapeTruthy (data : Json) : Bool :=
  Json.truthyO (data.getField "choices") &&
  Json.truthyO ((data.getField "choices").bind Json.index0) &&
  Json.truthyO (((data.getField "choices").bind Json.index0).bind
    (fun c => c.getField "message"))

/-- The assistant text the client extracts from a provider response
envelope.  The result is the extracted JavaScript value; an absent
`content` (JavaScript `undefined`) is modelled as `Json.null`. -/
def extractAssistantText (data : Json) : Json :=
  if choicesShapeTruthy data then
    ((((data.getField "choices").bind Json.index0).bind
      (fun c => c.getField "message")).bind
      (fun m => m.getField "content")).getD Json.null
  else if Json.truthyO (data.getField "output") then
    match (data.getField "output").getD Json.null with
    | .str s => .str s
    | o =>
      match o.index0 with
      | some v => if v = Json.null then .str (Json.stringify o) else v
      | none => .str (Json.stringify o)
  else if Json.truthyO (data.getField "result") then
    (data.getField "result").getD Json.null
  else
    .str (Json.stringify data)

/-! ## Proxy: transcript window -/

/-- `trimHistory` from `server/server.js` (both variants):
`messages.slice(-max)`, the last `max` entries.  The function's own
`Array.isArray` guard is vacuous here because the handler only calls it
after validating that `messages` is an array. -/
def trimHistory (messages : List α) (max : Nat) : List α :=
  messages.drop (messages.length - max)

/-! ## Proxy: password gate (`server/server.js`, `part_002` variant) -/

/-- JavaScript `a || b` on an optional string `a`: `a`'s value when present
and non-empty (truthy), otherwise `b`. -/
def jsOrStr (a : Option String) (b : String) : String :=
  match a with
  | some s => if s = "" then b else s
  | none => b

/-- The password the request carries:
`req.headers["x-errorify-password"] || req.query.pw || ""`. -/
def providedPassword (headerPw queryPw : Option String) : String :=
  jsOrStr headerPw (jsOrStr queryPw "")

/-- `requirePassword` middleware: `true` means the request passes on to the
route handler, `false` means it is answered with 401. -/
def requirePassword (botPassword : String) (headerPw queryPw : Option String) : Bool :=
  if botPassword = "" then true
  else providedPassword headerPw queryPw = botPassword

/-- The observable outcome of a request to a proxy route: HTTP status, JSON
body, and whether the upstream provider was contacted while producing it. -/
structure ProxyResult where
  status : Nat
  body : Json
  upstreamCalled : Bool
deriving DecidableEq, Repr

/-- The middleware's rejection: `res.status(401).json({ error: "Unauthorized" })`,
produced without running the route handler. -/
def unauthorizedResult : ProxyResult :=
  ⟨401, .obj [("error", .str "Unauthorized")], false⟩

/-- `POST /api/chat` behind `requirePassword`: the handler's outcome is
reached only when the middleware lets the request through. -/
def chatRoute (botPassword : String) (headerPw queryPw : Option String)
    (handlerResult : ProxyResult) : ProxyResult :=
  if requirePassword botPassword headerPw queryPw then handlerResult
  else unauthorizedResult

/-! ## Proxy: relaying the upstream response (`server/server.js`, both variants) -/

/-- An HTTP response body as the proxy sends it: `res.json(...)` or
`res.send(text)`. -/
inductive ResponseBody where
  | jsonBody : Json → ResponseBody
  | textBody : String → ResponseBody
deriving DecidableEq, Repr

/-- Status and body of the proxy's reply. -/
structure RelayResult where
  status : Nat
  body : ResponseBody
deriving DecidableEq, Repr

/-- How the proxy turns the upstream reply (status plus body text) into its
own response: on success (`resp.ok`, status 200–299) the raw text is
forwarded with the default 200 status; on failure the body is relayed under
the upstream status, parsed as JSON when possible and raw otherwise. -/
def relayUpstreamResponse (upstreamStatus : Nat) (upstreamText : String) : RelayResult :=
  if 200 ≤ upstreamStatus ∧ upstreamStatus < 300 then
    ⟨200, .textBody upstreamText⟩
  else
    match parseJson upstreamText with
    | some parsed => ⟨upstreamStatus, .jsonBody parsed⟩
    | none => ⟨upstreamStatus, .textBody upstreamText⟩

/-! ## Client: turn submission (`sendMessage`, both client variants) -/

/-- The request body `{ messages: [...conversation, { role: "user", content: text }] }`. -/
structure SendPayload where
  messages : List ChatMessage
deriving DecidableEq, Repr

/-- The synchronous phase of `sendMessage`, up to the point the network
request is issued: trims the input; an empty trimmed input returns with no
change and no request; otherwise the user message is appended to the
conversation and the payload is built from the same extended transcript. -/
def sendMessagePre (input : String) (conversation : List ChatMessage) :
    List ChatMessage × Option SendPayload :=
  let text := jsTrim input
  if text = "" then (conversation, none)
  else
    (conversation ++ [⟨"user", text⟩],
     some ⟨conversation ++ [⟨"user", text⟩]⟩)

/-! ## Client: error-message normalization (`part_000` client variant) -/

/-- `let errMsg = textBody || ` Request failed: status ` `. -/
def fallbackErrMsg (status : Nat) (textBody : String) : String :=
  if textBody = "" then "Request failed: " ++ toString status else textBody

/-- `errMsg.trim().startsWith("<!DOCTYPE") || errMsg.trim().startsWith("<html")`. -/
def looksLikeHtml (s : String) : Bool :=
  strStartsWith (jsTrim s) "<!DOCTYPE" || strStartsWith (jsTrim s) "<html"

/-- The error message the `part_000` client shows for a non-success HTTP
response with body `textBody`: HTML-looking bodies are replaced by a fixed
message; otherwise the body is parsed as JSON and a truthy `error.message`
is preferred, then a truthy `error` serialized, then the fallback text. -/
def computeErrMsg (status : Nat) (textBody : String) : Json :=
  let errMsg0 := fallbackErrMsg status textBody
  if looksLikeHtml errMsg0 then
    .str "Server error (HTML response). Check backend URL."
  else
    match parseJson textBody with
    | none => .str errMsg0
    | some json =>
      let err := json.getField "error"
      let msg := err.bind (fun e => e.getField "message")
      if Json.truthyO msg then msg.getD Json.null
      else if Json.truthyO err then .str (Json.stringify (err.getD Json.null))
      else .str errMsg0

/-! ## Proxy: mock endpoint (`POST /api/chat-mock`, both server variants) -/

/-- The outcome of the mock endpoint: its JSON body, and whether the
upstream provider was contacted. -/
structure MockResult where
  body : Json
  upstreamCalled : Bool
deriving DecidableEq, Repr

/-- `{ choices: [{ message: { content: reply } }] }`. -/
def mockEnvelope (reply : String) : Json :=
  .obj [("choices", .arr [.obj [("message", .obj [("content", .str reply)])]])]

/-- The mock handler: finds the last `user`-role message of the request
(`messages.slice().reverse().find(m => m.role === "user")`) and echoes it in
a fixed template, or a fixed greeting when there is none; the upstream
provider is never contacted. -/
def chatMockHandler (messages : List ChatMessage) : MockResult :=
  let lastUser := messages.reverse.find? (fun m => m.role = "user")
  let reply :=
    match lastUser with
    | some m => "Mock reply to: \"" ++ m.content ++ "\""
    | none => "Mock hello from Errorify"
  ⟨mockEnvelope reply, false⟩

/-! ## Client: synthetic streaming (`simulateStreaming` in `web/src/App.jsx`)

`simulateStreaming(text, onChunk, speed)` splits `text` with
`text.split(/(\s+)/)` — the capturing group makes the separators part of the
result — and runs a loop `while (i < tokens.length && !cancelled)` that
emits `tokens[i]` and waits between emissions.  The returned closure sets
`cancelled = true`.  `sendMessage` accumulates the chunks in `buffer` and
writes `buffer` into the displayed assistant message, wires the cancel
closure to the Stop button (which also clears the `streaming` flag), and
schedules a safety timeout that only touches the `streaming` flag. -/

/-- `text.split(/(\s+)/)` on character lists: alternating runs of
non-whitespace and whitespace characters, beginning and ending with a
(possibly empty) non-whitespace run, exactly as JavaScript `split` with a
capturing group returns them.  Structural on a fuel argument; each
recursive step consumes at least one character, so the fuel passed by
`tokenize` never runs out. -/
def tokCharsF : Nat → List Char → List (List Char)
  | 0, _ => []
  | fuel + 1, cs =>
    let chunk := cs.takeWhile (fun c => !c.isWhitespace)
    let rest := cs.dropWhile (fun c => !c.isWhitespace)
    match rest with
    | [] => [chunk]
    | _ =>
      chunk :: rest.takeWhile Char.isWhitespace ::
        tokCharsF fuel (rest.dropWhile Char.isWhitespace)

/-- The token list `simulateStreaming` iterates over: `text.split(/(\s+)/)`. -/
def tokenize (text : String) : List String :=
  (tokCharsF (text.data.length + 1) text.data).map (fun cs => ⟨cs⟩)

/-- `Math.max(600, Math.min(assistantText.length * 12, 3000))`, the delay in
milliseconds of the safety timeout `sendMessage` schedules. -/
def safetyTimeoutMs (assistantText : String) : Nat :=
  max 600 (min (assistantText.length * 12) 3000)

/-- The observable events of one streaming animation: the loop emitting the
next token, the cancellation closure running (Stop also clears the
streaming flag), and the safety timeout firing. -/
inductive SimEvent where
  | emit : SimEvent
  | cancel : SimEvent
  | timeout : SimEvent
deriving DecidableEq, Repr

/-- The state of one streaming animation: the loop index `i`, the
`cancelled` flag of `simulateStreaming`, the accumulated `buffer` shown as
the assistant message's content, and the `streaming` UI flag. -/
structure SimState where
  idx : Nat
  cancelled : Bool
  buffer : String
  uiStreaming : Bool
deriving DecidableEq, Repr

/-- At the start of the animation: `i = 0`, not cancelled, empty buffer,
`setStreaming(true)` already done. -/
def simInit : SimState := ⟨0, false, "", true⟩

/-- One event of the animation.  `emit` appends `tokens[i]` to the buffer
only when the loop guard `i < tokens.length && !cancelled` holds;
`cancel` sets the `cancelled` flag (and Stop clears the UI flag); the
safety timeout's callback runs `if (streaming) { setStreaming(false); ... }`
over the `streaming` value `captured` when the closure was created, and
touches nothing else — in particular it never sets `cancelled`. -/
def simStep (tokens : List String) (captured : Bool) (s : SimState) :
    SimEvent → SimState
  | .emit =>
    if s.idx < tokens.length ∧ s.cancelled = false then
      ⟨s.idx + 1, s.cancelled, s.buffer ++ tokens.getD s.idx "", s.uiStreaming⟩
    else s
  | .cancel => ⟨s.idx, true, s.buffer, false⟩
  | .timeout => if captured then ⟨s.idx, s.cancelled, s.buffer, false⟩ else s

/-- The state after a sequence of animation events. -/
def simRun (tokens : List String) (captured : Bool) (events : List SimEvent) : SimState :=
  events.foldl (simStep tokens captured) simInit

/-! ## General lemmas -/

theorem length_dropWhile_le (p : α → Bool) (l : List α) :
    (l.dropWhile p).length ≤ l.length := by
  have h := congrArg List.length (List.takeWhile_append_dropWhile p l)
  simp only [List.length_append] at h
  omega

@[simp] theorem truthyO_some (v : Json) : Json.truthyO (some v) = v.truthy := rfl

@[simp] theorem truthyO_none : Json.truthyO none = false := rfl

theorem strMk_append (a b : List Char) :
    String.mk a ++ String.mk b = String.mk (a ++ b) := rfl

theorem strJoin_go (ls : List (List Char)) : ∀ acc : List Char,
    (ls.map (fun cs => String.mk cs)).foldl (· ++ ·) (String.mk acc)
      = String.mk (acc ++ ls.flatten) := by
  induction ls with
  | nil => intro acc; simp
  | cons x xs ih =>
    intro acc
    simp only [List.map_cons, List.foldl_cons, strMk_append, List.flatten_cons]
    rw [ih]
    simp [List.append_assoc]

theorem strJoin_mk (ls : List (List Char)) :
    String.join (ls.map (fun cs => String.mk cs)) = String.mk ls.flatten := by
  have h := strJoin_go ls []
  simpa [String.join] using h

theorem strFoldl_append_acc (l : List String) : ∀ acc : String,
    l.foldl (· ++ ·) acc = acc ++ l.foldl (· ++ ·) "" := by
  induction l with
  | nil => intro acc; simp
  | cons x xs ih =>
    intro acc
    simp only [List.foldl_cons]
    rw [ih (acc ++ x), ih ("" ++ x), String.empty_append, String.append_assoc]

theorem strJoin_append (l1 l2 : List String) :
    String.join (l1 ++ l2) = String.join l1 ++ String.join l2 := by
  show (l1 ++ l2).foldl (· ++ ·) "" = _
  rw [List.foldl_append, strFoldl_append_acc l2 (l1.foldl (· ++ ·) "")]
  rfl

theorem strJoin_singleton (s : String) : String.join [s] = s := by
  simp [String.join]

/-! ## C2: the proxy forwards exactly the last 12 messages -/

/-- C2: for every transcript of more than 12 messages, the forwarded window
`trimHistory messages 12` has exactly 12 entries, is a suffix of the
transcript (the transcript is a prefix of dropped messages followed by the
window, so order is preserved), and ends with the transcript's last
message. -/
theorem c2_forwards_last_twelve (messages : List ChatMessage)
    (h : 12 < messages.length) :
    (trimHistory messages 12).length = 12 ∧
    messages.take (messages.length - 12) ++ trimHistory messages 12 = messages ∧
    (trimHistory messages 12).getLast? = messages.getLast? := by
  unfold trimHistory
  refine ⟨?_, List.take_append_drop _ _, ?_⟩
  · rw [List.length_drop]
    omega
  · have hne : messages.drop (messages.length - 12) ≠ [] := by
      intro hnil
      have := congrArg List.length hnil
      rw [List.length_drop] at this
      simp at this
      omega
    conv_rhs =>
      rw [← List.take_append_drop (messages.length - 12) messages]
    rw [List.getLast?_append_of_ne_nil _ hne]

/-- A concrete 13-message transcript used to witness C2. -/
def sampleTranscript : List ChatMessage :=
  List.replicate 12 ⟨"user", "a"⟩ ++ [⟨"user", "z"⟩]

/-- Witness for C2 at a concrete 13-message transcript. -/
theorem c2_forwards_last_twelve_witness :
    (trimHistory sampleTranscript 12).length = 12 ∧
    sampleTranscript.take (sampleTranscript.length - 12) ++
      trimHistory sampleTranscript 12 = sampleTranscript ∧
    (trimHistory sampleTranscript 12).getLast? = sampleTranscript.getLast? :=
  c2_forwards_last_twelve sampleTranscript (by decide)

/-! ## C4: the password gate -/

/-- C4: when a shared secret is configured and the request carries neither a
matching `x-errorify-password` header nor a matching `pw` query value, the
route answers exactly the middleware's 401 rejection — whatever the handler
would have produced — so the upstream provider is never contacted; and when
no secret is configured every request passes the check. -/
theorem c4_password_gate :
    (∀ (botPassword : String) (headerPw queryPw : Option String)
        (handlerResult : ProxyResult),
      botPassword ≠ "" →
      headerPw ≠ some botPassword →
      queryPw ≠ some botPassword →
      chatRoute botPassword headerPw queryPw handlerResult = unauthorizedResult ∧
      (chatRoute botPassword headerPw queryPw handlerResult).status = 401 ∧
      (chatRoute botPassword headerPw queryPw handlerResult).upstreamCalled = false)
    ∧ (∀ headerPw queryPw : Option String,
      requirePassword "" headerPw queryPw = true) := by
  constructor
  · intro botPassword headerPw queryPw handlerResult hbp hh hq
    have hquery : jsOrStr queryPw "" ≠ botPassword := by
      intro he
      rcases queryPw with _ | q
      · exact hbp (by simpa [jsOrStr] using he.symm)
      · by_cases hq0 : q = ""
        · rw [jsOrStr, if_pos hq0] at he
          exact hbp he.symm
        · rw [jsOrStr, if_neg hq0] at he
          exact hq (by rw [he])
    have hprov : providedPassword headerPw queryPw ≠ botPassword := by
      intro he
      rcases headerPw with _ | hdr
      · exact hquery (by simpa [providedPassword, jsOrStr] using he)
      · by_cases hd0 : hdr = ""
        · rw [providedPassword, jsOrStr, if_pos hd0] at he
          exact hquery he
        · rw [providedPassword, jsOrStr, if_neg hd0] at he
          exact hh (by rw [he])
    have hreq : requirePassword botPassword headerPw queryPw = false := by
      unfold requirePassword
      rw [if_neg hbp]
      simpa using hprov
    have hroute : chatRoute botPassword headerPw queryPw handlerResult = unauthorizedResult := by
      unfold chatRoute
      rw [hreq]
      simp
    exact ⟨hroute, by rw [hroute]; rfl, by rw [hroute]; rfl⟩
  · intro headerPw queryPw
    simp [requirePassword]

/-- Witness for C4: a configured secret with a wrong header and no query
value yields the 401 rejection even though the handler outcome would have
called upstream; with no secret configured the same request passes. -/
theorem c4_password_gate_witness :
    (chatRoute "secret" (some "wrong") none ⟨200, Json.null, true⟩ = unauthorizedResult ∧
     (chatRoute "secret" (some "wrong") none ⟨200, Json.null, true⟩).status = 401 ∧
     (chatRoute "secret" (some "wrong") none ⟨200, Json.null, true⟩).upstreamCalled = false) ∧
    requirePassword "" (some "wrong") none = true :=
  ⟨c4_password_gate.1 "secret" (some "wrong") none ⟨200, Json.null, true⟩
      (by decide) (by decide) (by decide),
   c4_password_gate.2 (some "wrong") none⟩

/-! ## C5: turn submission appends exactly one trimmed user message -/

/-- C5: when the trimmed input is non-empty, `sendMessage` appends exactly
one user message carrying the trimmed text before issuing the request, and
the request payload is that same extended transcript; when the trimmed
input is empty the call is a no-op — no message appended, no request. -/
theorem c5_send_trims_and_appends :
    (∀ (input : String) (conversation : List ChatMessage),
      jsTrim input ≠ "" →
      sendMessagePre input conversation =
        (conversation ++ [⟨"user", jsTrim input⟩],
         some ⟨conversation ++ [⟨"user", jsTrim input⟩]⟩))
    ∧ (∀ (input : String) (conversation : List ChatMessage),
      jsTrim input = "" →
      sendMessagePre input conversation = (conversation, none)) := by
  constructor
  · intro input conversation h
    simp [sendMessagePre, h]
  · intro input conversation h
    simp [sendMessagePre, h]

/-- Witness for C5: a padded non-empty input appends one trimmed user
message; a whitespace-only input is a no-op. -/
theorem c5_send_trims_and_appends_witness :
    sendMessagePre "  hi " [⟨"system", "s"⟩] =
      ([⟨"system", "s"⟩, ⟨"user", jsTrim "  hi "⟩],
       some ⟨[⟨"system", "s"⟩, ⟨"user", jsTrim "  hi "⟩]⟩) ∧
    sendMessagePre "   " [⟨"system", "s"⟩] = ([⟨"system", "s"⟩], none) :=
  ⟨c5_send_trims_and_appends.1 "  hi " [⟨"system", "s"⟩] (by decide),
   c5_send_trims_and_appends.2 "   " [⟨"system", "s"⟩] (by decide)⟩

/-! ## C1: the provider-envelope extraction ladder -/

/-- C1 counterexample: the claim's ladder is keyed on *existence* ("else if
output is a string the text equals output"), but the code's ladder is keyed
on JavaScript *truthiness* (`else if (data.output)`).  For the envelope
`{"output": ""}`, `output` exists and is a string, so the claim says the
extracted text is `""`; the code finds `data.output` falsy and `data.result`
absent and falls through to `JSON.stringify(data)`, yielding the serialized
envelope instead. -/
theorem c1_extraction_counterexample :
    extractAssistantText (Json.obj [("output", Json.str "")])
        = Json.str "\x7b\"output\":\"\"\x7d" ∧
    extractAssistantText (Json.obj [("output", Json.str "")]) ≠ Json.str "" := by
  decide

/-- C1 (amended): the client extracts the assistant text by trying shapes in
fixed priority order keyed on JavaScript truthiness: if `choices`,
`choices[0]` and `choices[0].message` are all truthy, the text is
`choices[0].message.content`; else if `output` is truthy: a string `output`
yields itself, an array `output` yields its first element when that element
is present and non-null and the serialization of `output` otherwise; else if
`result` is truthy the text is `result`; else the text is the JSON
serialization of the whole envelope.  In particular, for an envelope with
`choices[0].message.content = "X"` the text is `"X"`; for truthy
`output: "X"` it is `"X"`; for `output: ["X", ...]` with non-null first
element it is `"X"`; and for an envelope with none of these shapes it is
the serialized envelope. -/
theorem c1_extraction_ladder :
    (∀ data m c : Json,
      choicesShapeTruthy data = true →
      (((data.getField "choices").bind Json.index0).bind
        (fun x => x.getField "message")) = some m →
      m.getField "content" = some c →
      extractAssistantText data = c)
    ∧ (∀ (data : Json) (s : String),
      choicesShapeTruthy data = false →
      data.getField "output" = some (.str s) →
      s ≠ "" →
      extractAssistantText data = .str s)
    ∧ (∀ (data v : Json) (vs : List Json),
      choicesShapeTruthy data = false →
      data.getField "output" = some (.arr (v :: vs)) →
      v ≠ .null →
      extractAssistantText data = v)
    ∧ (∀ (data : Json) (xs : List Json),
      choicesShapeTruthy data = false →
      data.getField "output" = some (.arr xs) →
      (xs.head? = none ∨ xs.head? = some .null) →
      extractAssistantText data = .str (Json.stringify (.arr xs)))
    ∧ (∀ data r : Json,
      choicesShapeTruthy data = false →
      Json.truthyO (data.getField "output") = false →
      data.getField "result" = some r →
      r.truthy = true →
      extractAssistantText data = r)
    ∧ (∀ data : Json,
      choicesShapeTruthy data = false →
      Json.truthyO (data.getField "output") = false →
      Json.truthyO (data.getField "result") = false →
      extractAssistantText data = .str (Json.stringify data))
    ∧ extractAssistantText (Json.obj [("choices",
        Json.arr [Json.obj [("message", Json.obj [("content", Json.str "X")])]])])
        = Json.str "X"
    ∧ extractAssistantText (Json.obj [("output", Json.str "X")]) = Json.str "X"
    ∧ extractAssistantText (Json.obj [("output", Json.arr [Json.str "X", Json.str "Y"])])
        = Json.str "X"
    ∧ extractAssistantText (Json.obj [("foo", Json.num 1)])
        = Json.str "\x7b\"foo\":1\x7d" := by
  refine ⟨?_, ?_, ?_, ?_, ?_, ?_, by decide, by decide, by decide, by decide⟩
  · intro data m c h1 h2 h3
    simp [extractAssistantText, h1, h2, h3]
  · intro data s h1 h2 h3
    simp [extractAssistantText, h1, h2, Json.truthyO, Json.truthy, h3]
  · intro data v vs h1 h2 h3
    simp [extractAssistantText, h1, h2, Json.truthyO, Json.truthy, Json.index0, h3]
  · intro data xs h1 h2 h3
    rcases h3 with h3 | h3
    · rw [List.head?_eq_none_iff] at h3
      subst h3
      simp [extractAssistantText, h1, h2, Json.truthyO, Json.truthy, Json.index0]
    · rcases xs with _ | ⟨v, vs⟩
      · simp at h3
      · simp at h3
        subst h3
        simp [extractAssistantText, h1, h2, Json.truthyO, Json.truthy, Json.index0]
  · intro data r h1 h2 h3 h4
    simp [extractAssistantText, h1, h2, h3, h4]
  · intro data h1 h2 h3
    simp [extractAssistantText, h1, h2, h3]

/-- Witness for C1's conditional branches at concrete envelopes: the
`choices` branch, the truthy-string `output` branch, and the fallthrough
branch with falsy `output` and truthy `result`. -/
theorem c1_extraction_ladder_witness :
    extractAssistantText (Json.obj [("choices",
        Json.arr [Json.obj [("message", Json.obj [("content", Json.str "Y")])]])])
      = Json.str "Y" ∧
    extractAssistantText (Json.obj [("output", Json.str "out")]) = Json.str "out" ∧
    extractAssistantText (Json.obj [("output", Json.str ""), ("result", Json.str "res")])
      = Json.str "res" :=
  ⟨c1_extraction_ladder.1 _ (Json.obj [("content", Json.str "Y")]) (Json.str "Y")
      (by decide) (by decide) (by decide),
   c1_extraction_ladder.2.1 _ "out" (by decide) (by decide) (by decide),
   c1_extraction_ladder.2.2.2.2.1 _ (Json.str "res")
      (by decide) (by decide) (by decide) (by decide)⟩

/-! ## C3: relaying upstream failures -/

/-- C3: for every non-success upstream status, the proxy's response carries
the same status code, with the upstream body parsed as JSON when parseable
and relayed as raw text otherwise; in particular an upstream 500 with body
`{"error":"boom"}` yields a 500 response with JSON body `{error:"boom"}`. -/
theorem c3_upstream_error_relay :
    (∀ (status : Nat) (text : String),
      ¬(200 ≤ status ∧ status < 300) →
      (relayUpstreamResponse status text).status = status ∧
      ((∃ j, parseJson text = some j ∧
          (relayUpstreamResponse status text).body = .jsonBody j) ∨
       (parseJson text = none ∧
          (relayUpstreamResponse status text).body = .textBody text)))
    ∧ relayUpstreamResponse 500 "\x7b\"error\":\"boom\"\x7d"
        = ⟨500, .jsonBody (Json.obj [("error", Json.str "boom")])⟩ := by
  constructor
  · intro status text h
    unfold relayUpstreamResponse
    rw [if_neg h]
    cases hp : parseJson text with
    | none => simp [hp]
    | some j => simp [hp]
  · decide

/-- Witness for C3: a 500 with a JSON body is parsed and relayed; a 502
with a non-JSON body is relayed as raw text under status 502. -/
theorem c3_upstream_error_relay_witness :
    ((relayUpstreamResponse 500 "\x7b\"error\":\"boom\"\x7d").status = 500 ∧
     ((∃ j, parseJson "\x7b\"error\":\"boom\"\x7d" = some j ∧
        (relayUpstreamResponse 500 "\x7b\"error\":\"boom\"\x7d").body = .jsonBody j) ∨
      (parseJson "\x7b\"error\":\"boom\"\x7d" = none ∧
        (relayUpstreamResponse 500 "\x7b\"error\":\"boom\"\x7d").body
          = .textBody "\x7b\"error\":\"boom\"\x7d"))) ∧
    ((relayUpstreamResponse 502 "bad gateway").status = 502 ∧
     ((∃ j, parseJson "bad gateway" = some j ∧
        (relayUpstreamResponse 502 "bad gateway").body = .jsonBody j) ∨
      (parseJson "bad gateway" = none ∧
        (relayUpstreamResponse 502 "bad gateway").body = .textBody "bad gateway"))) :=
  ⟨c3_upstream_error_relay.1 500 "\x7b\"error\":\"boom\"\x7d" (by decide),
   c3_upstream_error_relay.1 502 "bad gateway" (by decide)⟩

/-! ## C6: client error-message normalization -/

/-- C6 counterexample: the claim says that when `error.message` extraction
fails the client falls back to the raw body text.  For the non-HTML,
JSON-parseable body `{"error":"boom"}` the `error` field exists but has no
`message`, and the `part_000` code takes its `else if (json?.error)` branch,
showing `JSON.stringify(json.error)` — the quoted string `"boom"` — rather
than the raw body text. -/
theorem c6_error_message_counterexample :
    computeErrMsg 500 "\x7b\"error\":\"boom\"\x7d" = Json.str "\"boom\"" ∧
    computeErrMsg 500 "\x7b\"error\":\"boom\"\x7d"
      ≠ Json.str "\x7b\"error\":\"boom\"\x7d" := by
  decide

/-- C6 (amended): for a non-success HTTP response the client starts from the
body text (or `"Request failed: <status>"` when the body is empty); if that
text, trimmed, starts with `<!DOCTYPE` or `<html` it is replaced by the
fixed message `"Server error (HTML response). Check backend URL."`;
otherwise the client parses the body as JSON and shows a truthy
`error.message` when present, else the JSON serialization of a truthy
`error` field, and falls back to the starting text when the body is not
parseable or has no truthy `error`. -/
theorem c6_error_message_policy :
    (∀ (status : Nat) (body : String),
      looksLikeHtml (fallbackErrMsg status body) = true →
      computeErrMsg status body
        = .str "Server error (HTML response). Check backend URL.")
    ∧ (∀ (status : Nat) (body : String) (j m : Json),
      looksLikeHtml (fallbackErrMsg status body) = false →
      parseJson body = some j →
      (j.getField "error").bind (fun e => e.getField "message") = some m →
      m.truthy = true →
      computeErrMsg status body = m)
    ∧ (∀ (status : Nat) (body : String) (j e : Json),
      looksLikeHtml (fallbackErrMsg status body) = false →
      parseJson body = some j →
      j.getField "error" = some e →
      Json.truthyO ((j.getField "error").bind (fun x => x.getField "message")) = false →
      e.truthy = true →
      computeErrMsg status body = .str (Json.stringify e))
    ∧ (∀ (status : Nat) (body : String) (j : Json),
      looksLikeHtml (fallbackErrMsg status body) = false →
      parseJson body = some j →
      Json.truthyO ((j.getField "error").bind (fun x => x.getField "message")) = false →
      Json.truthyO (j.getField "error") = false →
      computeErrMsg status body = .str (fallbackErrMsg status body))
    ∧ (∀ (status : Nat) (body : String),
      looksLikeHtml (fallbackErrMsg status body) = false →
      parseJson body = none →
      computeErrMsg status body = .str (fallbackErrMsg status body))
    ∧ (∀ (status : Nat) (body : String), body ≠ "" → fallbackErrMsg status body = body)
    ∧ (∀ status : Nat,
      fallbackErrMsg status "" = "Request failed: " ++ toString status) := by
  refine ⟨?_, ?_, ?_, ?_, ?_, ?_, ?_⟩
  · intro status body h
    simp [computeErrMsg, h]
  · intro status body j m h1 h2 h3 h4
    simp [computeErrMsg, h1, h2, h3, h4]
  · intro status body j e h1 h2 h3 h4 h5
    rw [h3] at h4
    simp only [Option.some_bind] at h4
    simp [computeErrMsg, h1, h2, h3, h4, h5]
  · intro status body j h1 h2 h3 h4
    simp [computeErrMsg, h1, h2, h3, h4]
  · intro status body h1 h2
    simp [computeErrMsg, h1, h2]
  · intro status body h
    simp [fallbackErrMsg, h]
  · intro status
    simp [fallbackErrMsg]

/-- Witness for C6's branches at concrete bodies: an HTML body, a JSON body
with a truthy `error.message`, and an unparseable non-empty body. -/
theorem c6_error_message_policy_witness :
    computeErrMsg 404 "<!DOCTYPE html><p>missing</p>"
      = Json.str "Server error (HTML response). Check backend URL." ∧
    computeErrMsg 500 "\x7b\"error\":\x7b\"message\":\"rate limited\"\x7d\x7d"
      = Json.str "rate limited" ∧
    computeErrMsg 502 "bad gateway" = Json.str (fallbackErrMsg 502 "bad gateway") :=
  ⟨c6_error_message_policy.1 404 "<!DOCTYPE html><p>missing</p>" (by decide),
   c6_error_message_policy.2.1 500 "\x7b\"error\":\x7b\"message\":\"rate limited\"\x7d\x7d"
      (Json.obj [("error", Json.obj [("message", Json.str "rate limited")])])
      (Json.str "rate limited") (by decide) (by decide) (by decide) (by decide),
   c6_error_message_policy.2.2.2.2.1 502 "bad gateway" (by decide) (by decide)⟩

/-! ## C8: the mock endpoint -/

/-- C8 counterexample: the claim says every request is answered with a
`Mock reply to: ...` content referencing the last user-role message, but a
request with no user-role message (here the empty transcript) is answered
with the fixed greeting `Mock hello from Errorify`, which neither has the
claimed shape nor references any user message. -/
theorem c8_mock_counterexample :
    (chatMockHandler []).body = mockEnvelope "Mock hello from Errorify" ∧
    strStartsWith "Mock hello from Errorify" "Mock reply to:" = false := by
  decide

/-- C8 (amended): the mock endpoint always answers with the envelope
`{ choices: [{ message: { content: ... } }] }` and never contacts the
upstream provider; when the request has a user-role message the content is
`Mock reply to: "<content of the last user-role message>"`, and when it has
none the content is the fixed greeting `Mock hello from Errorify`.  In
particular `messages: [{role:"user", content:"hi"}]` is answered with
content exactly `Mock reply to: "hi"`. -/
theorem c8_mock_reply :
    (∀ (pre post : List ChatMessage) (m : ChatMessage),
      m.role = "user" →
      (∀ x ∈ post, x.role ≠ "user") →
      chatMockHandler (pre ++ m :: post)
        = ⟨mockEnvelope ("Mock reply to: \"" ++ m.content ++ "\""), false⟩)
    ∧ (∀ messages : List ChatMessage,
      (∀ x ∈ messages, x.role ≠ "user") →
      chatMockHandler messages = ⟨mockEnvelope "Mock hello from Errorify", false⟩)
    ∧ chatMockHandler [⟨"user", "hi"⟩]
        = ⟨mockEnvelope "Mock reply to: \"hi\"", false⟩
    ∧ (∀ messages : List ChatMessage,
      (chatMockHandler messages).upstreamCalled = false) := by
  refine ⟨?_, ?_, by decide, ?_⟩
  · intro pre post m hm hpost
    unfold chatMockHandler
    have hrev : (pre ++ m :: post).reverse = post.reverse ++ m :: pre.reverse := by
      simp
    rw [hrev, List.find?_append]
    have hnone : post.reverse.find? (fun x => decide (x.role = "user")) = none := by
      rw [List.find?_eq_none]
      intro x hx
      simp only [List.mem_reverse] at hx
      simpa using hpost x hx
    rw [hnone]
    rw [List.find?_cons_of_pos _ (by simpa using hm)]
    simp
  · intro messages hmsg
    unfold chatMockHandler
    have hnone : messages.reverse.find? (fun x => decide (x.role = "user")) = none := by
      rw [List.find?_eq_none]
      intro x hx
      simp only [List.mem_reverse] at hx
      simpa using hmsg x hx
    rw [hnone]
  · intro messages
    simp [chatMockHandler]

/-- Witness for C8: a transcript whose last user-role message sits between a
system message and a trailing assistant message, and a transcript with no
user-role message at all. -/
theorem c8_mock_reply_witness :
    chatMockHandler ([⟨"system", "s"⟩] ++ (⟨"user", "hello"⟩ : ChatMessage) :: [⟨"assistant", "a"⟩])
      = ⟨mockEnvelope "Mock reply to: \"hello\"", false⟩ ∧
    chatMockHandler [⟨"system", "s"⟩, ⟨"assistant", "a"⟩]
      = ⟨mockEnvelope "Mock hello from Errorify", false⟩ :=
  ⟨c8_mock_reply.1 [⟨"system", "s"⟩] [⟨"assistant", "a"⟩] ⟨"user", "hello"⟩
      (by decide) (by decide),
   c8_mock_reply.2.1 [⟨"system", "s"⟩, ⟨"assistant", "a"⟩] (by decide)⟩

/-! ## Tokenizer and streaming lemmas -/

theorem strJoin_take_succ (tokens : List String) (k : Nat) (h : k < tokens.length) :
    String.join (tokens.take (k + 1))
      = String.join (tokens.take k) ++ tokens.getD k "" := by
  rw [List.take_succ, strJoin_append]
  congr 1
  rw [List.getElem?_eq_getElem h]
  simp [List.getD_eq_getElem?_getD, List.getElem?_eq_getElem h, strJoin_singleton]

/-- After `n` uncancelled emissions the animation state is: index `n`, not
cancelled, buffer holding the first `n` tokens concatenated, UI flag set. -/
theorem simRun_emits (tokens : List String) (captured : Bool) (n : Nat)
    (h : n ≤ tokens.length) :
    simRun tokens captured (List.replicate n .emit)
      = ⟨n, false, String.join (tokens.take n), true⟩ := by
  induction n with
  | zero =>
    simp [simRun, simInit, String.join]
  | succ k ih =>
    have hk : k ≤ tokens.length := Nat.le_of_succ_le h
    have hlt : k < tokens.length := h
    unfold simRun at ih ⊢
    rw [List.replicate_succ' k SimEvent.emit, List.foldl_append, ih hk]
    simp only [List.foldl_cons, List.foldl_nil]
    rw [show simStep tokens captured ⟨k, false, String.join (tokens.take k), true⟩ .emit
        = if k < tokens.length ∧ false = false then
            ⟨k + 1, false, String.join (tokens.take k) ++ tokens.getD k "", true⟩
          else ⟨k, false, String.join (tokens.take k), true⟩ from rfl]
    rw [if_pos ⟨hlt, rfl⟩]
    rw [← strJoin_take_succ tokens k hlt]

/-- Once the `cancelled` flag is set, no later event changes the buffer, and
the flag stays set. -/
theorem simFoldl_cancelled (tokens : List String) (captured : Bool)
    (events : List SimEvent) : ∀ s : SimState, s.cancelled = true →
    (events.foldl (simStep tokens captured) s).buffer = s.buffer ∧
    (events.foldl (simStep tokens captured) s).cancelled = true := by
  induction events with
  | nil => intro s h; exact ⟨rfl, h⟩
  | cons e rest ih =>
    intro s h
    rcases e with _ | _ | _
    · have hstep : simStep tokens captured s .emit = s := by
        simp [simStep, h]
      rw [List.foldl_cons, hstep]
      exact ih s h
    · rw [List.foldl_cons]
      have hrec := ih ⟨s.idx, true, s.buffer, false⟩ rfl
      simpa [simStep] using hrec
    · rw [List.foldl_cons]
      by_cases hc : captured
      · have hrec := ih ⟨s.idx, s.cancelled, s.buffer, false⟩ h
        simpa [simStep, hc] using hrec
      · have hrec := ih s h
        simpa [simStep, hc] using hrec

/-- The emission-relevant part of the animation state: loop index,
cancellation flag, and displayed buffer — everything except the UI flag. -/
def simCore (s : SimState) : Nat × Bool × String := (s.idx, s.cancelled, s.buffer)

theorem simStep_core_congr (tokens : List String) (captured : Bool)
    (s t : SimState) (h : simCore s = simCore t) (e : SimEvent) :
    simCore (simStep tokens captured s e) = simCore (simStep tokens captured t e) := by
  obtain ⟨h1, h2, h3⟩ : s.idx = t.idx ∧ s.cancelled = t.cancelled ∧ s.buffer = t.buffer := by
    simpa [simCore, Prod.ext_iff] using h
  rcases e with _ | _ | _
  · simp only [simStep, h1, h2, h3]
    split_ifs with hc
    · simp [simCore, h1, h2, h3]
    · simp [simCore, h1, h2, h3]
  · simp [simStep, simCore, h1, h2, h3]
  · simp only [simStep]
    split_ifs with hc
    · simp [simCore, h1, h2, h3]
    · simp [simCore, h1, h2, h3]

theorem simFoldl_core_congr (tokens : List String) (captured : Bool)
    (events : List SimEvent) : ∀ s t : SimState, simCore s = simCore t →
    simCore (events.foldl (simStep tokens captured) s)
      = simCore (events.foldl (simStep tokens captured) t) := by
  induction events with
  | nil => intro s t h; exact h
  | cons e rest ih =>
    intro s t h
    rw [List.foldl_cons, List.foldl_cons]
    exact ih _ _ (simStep_core_congr tokens captured s t h e)

/-- The safety-timeout event touches nothing the emission loop reads. -/
theorem simStep_timeout_core (tokens : List String) (captured : Bool) (s : SimState) :
    simCore (simStep tokens captured s .timeout) = simCore s := by
  by_cases hc : captured <;> simp [simStep, simCore, hc]

/-- Structural lemma for the tokenizer: the split pieces concatenate back to
the input character list whenever the fuel exceeds the input length. -/
theorem tokCharsF_flatten : ∀ (fuel : Nat) (cs : List Char), cs.length < fuel →
    (tokCharsF fuel cs).flatten = cs := by
  intro fuel
  induction fuel with
  | zero => intro cs h; omega
  | succ f ih =>
    intro cs h
    by_cases hdrop : (cs.dropWhile (fun c => !c.isWhitespace)) = []
    · rw [show tokCharsF (f + 1) cs
          = [cs.takeWhile (fun c => !c.isWhitespace)] by
            simp [tokCharsF, hdrop]]
      have htd := List.takeWhile_append_dropWhile (fun c => !c.isWhitespace) cs
      rw [hdrop, List.append_nil] at htd
      simpa using htd
    · obtain ⟨r, rs, hrest⟩ : ∃ r rs,
          cs.dropWhile (fun c => !c.isWhitespace) = r :: rs := by
        cases hx : cs.dropWhile (fun c => !c.isWhitespace) with
        | nil => exact absurd hx hdrop
        | cons r rs => exact ⟨r, rs, rfl⟩
      have hws : r.isWhitespace = true := by
        have hh := List.head_dropWhile_not (fun c => !c.isWhitespace) cs
          (by rw [hrest]; simp)
        rw [show (cs.dropWhile (fun c => !c.isWhitespace)).head
              (by rw [hrest]; simp) = r by rw [List.head_eq_iff_head?_eq_some]; rw [hrest]; rfl]
          at hh
        simpa using hh
      rw [show tokCharsF (f + 1) cs
          = cs.takeWhile (fun c => !c.isWhitespace) ::
            (cs.dropWhile (fun c => !c.isWhitespace)).takeWhile Char.isWhitespace ::
            tokCharsF f ((cs.dropWhile (fun c => !c.isWhitespace)).dropWhile Char.isWhitespace)
          by simp [tokCharsF, hrest]]
      have hlen1 : (cs.dropWhile (fun c => !c.isWhitespace)).length ≤ cs.length :=
        length_dropWhile_le _ cs
      have hlen2 :
          ((cs.dropWhile (fun c => !c.isWhitespace)).dropWhile Char.isWhitespace).length
            ≤ rs.length := by
        rw [hrest, List.dropWhile_cons_of_pos hws]
        exact length_dropWhile_le _ rs
      have hlen3 : rs.length + 1 ≤ cs.length := by
        have := congrArg List.length hrest
        simp at this
        omega
      have hfuel :
          ((cs.dropWhile (fun c => !c.isWhitespace)).dropWhile Char.isWhitespace).length < f := by
        omega
      rw [List.flatten_cons, List.flatten_cons, ih _ hfuel]
      rw [List.takeWhile_append_dropWhile Char.isWhitespace
        (cs.dropWhile (fun c => !c.isWhitespace))]
      exact List.takeWhile_append_dropWhile (fun c => !c.isWhitespace) cs

/-! ## C7: cancellation freezes the displayed message -/

/-- C7: cancelling the streaming animation after `n` emitted tokens — with
any events at all happening afterwards — leaves the displayed buffer equal
to the concatenation of exactly the first `n` tokens of the split assistant
text; no further token is ever appended after the cancellation. -/
theorem c7_cancel_freezes_buffer (text : String) (captured : Bool) (n : Nat)
    (post : List SimEvent) (h : n ≤ (tokenize text).length) :
    (simRun (tokenize text) captured
        (List.replicate n .emit ++ .cancel :: post)).buffer
      = String.join ((tokenize text).take n) := by
  unfold simRun
  rw [List.foldl_append]
  have hrep := simRun_emits (tokenize text) captured n h
  unfold simRun at hrep
  rw [hrep, List.foldl_cons]
  have hcanc : simStep (tokenize text) captured
      ⟨n, false, String.join ((tokenize text).take n), true⟩ .cancel
      = ⟨n, true, String.join ((tokenize text).take n), false⟩ := rfl
  rw [hcanc]
  exact (simFoldl_cancelled (tokenize text) captured post _ rfl).1

/-- Witness for C7: cancelling after 3 of the 5 tokens of
`"hi there friend"`, with two further emit attempts, displays exactly
`"hi there"`. -/
theorem c7_cancel_freezes_buffer_witness :
    (simRun (tokenize "hi there friend") true
        (List.replicate 3 .emit ++ .cancel :: [.emit, .emit])).buffer
      = String.join ((tokenize "hi there friend").take 3) ∧
    String.join ((tokenize "hi there friend").take 3) = "hi there" :=
  ⟨c7_cancel_freezes_buffer "hi there friend" true 3 [.emit, .emit] (by decide),
   by decide⟩

/-! ## C9: the safety timeout does not stop token emission -/

/-- C9 counterexample: the claim says the safety timeout stops the animation
so that no further tokens are emitted.  For the text `"a b"`, after one
emitted token the timeout fires (it does clear the streaming UI flag), yet
the next emit event still appends the second token: the buffer grows from
`"a"` to `"a "` after the timeout has fired. -/
theorem c9_timeout_counterexample :
    (simRun (tokenize "a b") true [.emit, .timeout]).buffer = "a" ∧
    (simRun (tokenize "a b") true [.emit, .timeout]).uiStreaming = false ∧
    (simRun (tokenize "a b") true [.emit, .timeout, .emit]).buffer = "a " := by
  decide

/-- C9 (amended): the safety timeout's callback only runs
`if (streaming) setStreaming(false)` over the `streaming` value captured
when it was scheduled; it never sets the `cancelled` flag, so it does not
stop token emission: inserting the timeout firing anywhere in an event
sequence leaves the emitted buffer, the loop index and the cancellation
flag exactly as without it, and at most clears the streaming UI flag.
Emission stops only through the cancellation handle or token exhaustion. -/
theorem c9_timeout_only_clears_flag (tokens : List String) (captured : Bool)
    (pre post : List SimEvent) :
    (simRun tokens captured (pre ++ .timeout :: post)).buffer
        = (simRun tokens captured (pre ++ post)).buffer ∧
    (simRun tokens captured (pre ++ .timeout :: post)).idx
        = (simRun tokens captured (pre ++ post)).idx ∧
    (simRun tokens captured (pre ++ .timeout :: post)).cancelled
        = (simRun tokens captured (pre ++ post)).cancelled ∧
    (captured = true →
      (simRun tokens captured (pre ++ [.timeout])).uiStreaming = false) := by
  have hcore : simCore (simRun tokens captured (pre ++ .timeout :: post))
      = simCore (simRun tokens captured (pre ++ post)) := by
    unfold simRun
    rw [List.foldl_append, List.foldl_append, List.foldl_cons]
    exact simFoldl_core_congr tokens captured post _ _
      (simStep_timeout_core tokens captured _)
  obtain ⟨h1, h2, h3⟩ :
      (simRun tokens captured (pre ++ .timeout :: post)).idx
          = (simRun tokens captured (pre ++ post)).idx ∧
      (simRun tokens captured (pre ++ .timeout :: post)).cancelled
          = (simRun tokens captured (pre ++ post)).cancelled ∧
      (simRun tokens captured (pre ++ .timeout :: post)).buffer
          = (simRun tokens captured (pre ++ post)).buffer := by
    simpa [simCore, Prod.ext_iff] using hcore
  refine ⟨h3, h1, h2, ?_⟩
  intro hc
  unfold simRun
  rw [List.foldl_append, List.foldl_cons, List.foldl_nil]
  simp [simStep, hc]

/-- Witness for C9 (amended) at a concrete trace: one token before and one
after the timeout firing. -/
theorem c9_timeout_only_clears_flag_witness :
    (simRun (tokenize "a b") true ([.emit] ++ .timeout :: [.emit])).buffer
        = (simRun (tokenize "a b") true ([.emit] ++ [.emit])).buffer ∧
    (simRun (tokenize "a b") true ([.emit] ++ [.timeout])).uiStreaming = false :=
  ⟨(c9_timeout_only_clears_flag (tokenize "a b") true [.emit] [.emit]).1,
   (c9_timeout_only_clears_flag (tokenize "a b") true [.emit] [.emit]).2.2.2 rfl⟩

/-! ## C10: the tokenizer loses no characters -/

/-- C10: splitting the assistant text with the capturing-whitespace pattern
produces tokens that concatenate back to exactly the original text, and a
streaming animation that runs through all of its tokens without
cancellation ends with the displayed buffer equal to the original
assistant text, character for character. -/
theorem c10_tokens_concat (text : String) (captured : Bool) :
    String.join (tokenize text) = text ∧
    (simRun (tokenize text) captured
        (List.replicate (tokenize text).length .emit)).buffer = text := by
  have hjoin : String.join (tokenize text) = text := by
    unfold tokenize
    rw [strJoin_mk, tokCharsF_flatten (text.data.length + 1) text.data (by omega)]
  refine ⟨hjoin, ?_⟩
  rw [simRun_emits (tokenize text) captured (tokenize text).length (Nat.le_refl _)]
  rw [List.take_length]
  exact hjoin
